import Mathlib

/-!
Verification of the Fleet-Vehicle-Gateway frontend core against its
specification.  The definitions below are a shallow embedding of the
TypeScript source: JavaScript numbers are modelled as rationals, JS `Map`
objects as insertion-ordered association lists, and the React state updates
of each message handler as explicit state-passing functions.
-/

set_option autoImplicit false

namespace FleetGateway

/-- Geographic position carried by telemetry, `{latitude, longitude}`
(from `VehicleStatus.location` in `frontend/lib/websocket`). -/
structure Location where
  latitude : ℚ
  longitude : ℚ
deriving DecidableEq, Repr

/-- The `VehicleStatus` interface of `frontend/lib/websocket`. -/
structure VehicleStatus where
  vehicle_id : String
  last_seen : String
  occupancy_count : ℚ
  location : Location
  inference_latency_ms : ℚ
  consent_status : String
  route_id : Option String
  speed_kmh : Option ℚ
  is_active : Bool
deriving DecidableEq, Repr

/-- The `FleetSummary` interface of `frontend/lib/websocket`. -/
structure FleetSummary where
  total_vehicles : ℕ
  active_vehicles : ℕ
  total_passengers : ℚ
  average_occupancy : ℚ
  average_latency_ms : ℚ
  consent_granted_count : ℕ
  timestamp : String
deriving DecidableEq, Repr

/-- A parsed inbound telemetry-channel JSON message (`data` in
`ws.onmessage` of `useFleetWebSocket`).  Optional JSON fields are `Option`s;
the flat payload fields are those the update branch reads off `data`. -/
structure WsMessage where
  type : Option String
  vehicle_id : Option String
  vehicles : List VehicleStatus
  timestamp : String
  occupancy_count : ℚ
  location : Location
  inference_latency_ms : ℚ
  consent_status : String
  route_id : Option String
  speed_kmh : Option ℚ
deriving DecidableEq, Repr

/-- JavaScript truthiness of a possibly-absent string field
(`undefined` and `""` are falsy). -/
def truthyStr : Option String → Bool
  | none => false
  | some s => !(s == "")

/-- JS `Map.get`: first (and, keys being unique, only) binding for a key. -/
def mapGet : List (String × VehicleStatus) → String → Option VehicleStatus
  | [], _ => none
  | (k, v) :: rest, k2 => if k == k2 then some v else mapGet rest k2

/-- JS `Map.set`: replace in place when the key is present, else append. -/
def mapSet : List (String × VehicleStatus) → String → VehicleStatus → List (String × VehicleStatus)
  | [], k, v => [(k, v)]
  | (k1, v1) :: rest, k, v =>
    if k1 == k then (k, v) :: rest else (k1, v1) :: mapSet rest k v

/-- The per-vehicle update branch of `ws.onmessage`: a telemetry update is
converted to a `VehicleStatus` with `last_seen := data.timestamp` and
`is_active := true` unconditionally. -/
def toVehicleStatus (data : WsMessage) : VehicleStatus :=
  { vehicle_id := data.vehicle_id.getD ""
    last_seen := data.timestamp
    occupancy_count := data.occupancy_count
    location := data.location
    inference_latency_ms := data.inference_latency_ms
    consent_status := data.consent_status
    route_id := data.route_id
    speed_kmh := data.speed_kmh
    is_active := true }

/-- The React state owned by `useFleetWebSocket` that the message handler
and the summary effect mutate. -/
structure HookState where
  vehicles : List (String × VehicleStatus)
  summary : Option FleetSummary
  messageCount : ℕ
deriving DecidableEq, Repr

/-- The summary computation of the `useEffect` over `vehicles`
(JS `reduce`s become `foldl`s, `filter(...).length` stays a filter). -/
def computeSummary (vehicleArray : List VehicleStatus) (ts : String) : FleetSummary :=
  let activeVehicles := vehicleArray.filter (fun v => v.is_active)
  let totalPassengers := vehicleArray.foldl (fun sum v => sum + v.occupancy_count) 0
  let avgOccupancy := totalPassengers / (vehicleArray.length : ℚ)
  let avgLatency :=
    (vehicleArray.foldl (fun sum v => sum + v.inference_latency_ms) 0) / (vehicleArray.length : ℚ)
  let consentGranted := (vehicleArray.filter (fun v => v.consent_status == "granted")).length
  { total_vehicles := vehicleArray.length
    active_vehicles := activeVehicles.length
    total_passengers := totalPassengers
    average_occupancy := avgOccupancy
    average_latency_ms := avgLatency
    consent_granted_count := consentGranted
    timestamp := ts }

/-- The summary `useEffect`: it returns early (keeping the previous summary)
when the vehicles map is empty, else recomputes from the map values. -/
def updateSummary (prev : Option FleetSummary) (vehicles : List (String × VehicleStatus))
    (ts : String) : Option FleetSummary :=
  if vehicles.length = 0 then prev
  else some (computeSummary (vehicles.map Prod.snd) ts)

/-- One step of `ws.onmessage` in `useFleetWebSocket`, together with the
summary effect that reruns whenever `setVehicles` was called; `ts` is the
wall-clock ISO timestamp the effect stamps on a recomputed summary. -/
def handleMessage (s : HookState) (data : WsMessage) (ts : String) : HookState :=
  if data.type == some "initial_state" then
    let newVehicles := data.vehicles.foldl (fun m v => mapSet m v.vehicle_id v) []
    { s with vehicles := newVehicles, summary := updateSummary s.summary newVehicles ts }
  else if data.type == some "heartbeat" || data.type == some "pong" then
    s
  else if truthyStr data.vehicle_id then
    let updated := mapSet s.vehicles (data.vehicle_id.getD "") (toVehicleStatus data)
    { s with vehicles := updated
             messageCount := s.messageCount + 1
             summary := updateSummary s.summary updated ts }
  else
    s

/-- Processing a sequence of received messages, each paired with the
wall-clock timestamp available when its summary effect ran. -/
def processMessages (s : HookState) (msgs : List (WsMessage × String)) : HookState :=
  msgs.foldl (fun st p => handleMessage st p.1 p.2) s

/-- A message that takes the per-vehicle telemetry update branch: not an
`initial_state`, not a `heartbeat`/`pong` control frame, and carrying a
truthy `vehicle_id`. -/
def isTelemetryUpdate (m : WsMessage) : Bool :=
  !(m.type == some "initial_state") &&
    !(m.type == some "heartbeat" || m.type == some "pong") &&
    truthyStr m.vehicle_id

/-- The most recently processed message of a sequence carrying a given
`vehicle_id` (the claim-side notion for the last-writer-wins property). -/
def lastUpdateFor (vid : String) : List (WsMessage × String) → Option WsMessage
  | [] => none
  | p :: rest =>
    match lastUpdateFor vid rest with
    | some q => some q
    | none => if p.1.vehicle_id == some vid then some p.1 else none

/-- The last vehicle of a payload list carrying a given id (the claim-side
notion of what an `initial_state` map holds at a key). -/
def lastVehicleFor (vid : String) : List VehicleStatus → Option VehicleStatus
  | [] => none
  | v :: rest =>
    match lastVehicleFor vid rest with
    | some w => some w
    | none => if v.vehicle_id == vid then some v else none

theorem mapGet_mapSet (m : List (String × VehicleStatus)) (k k2 : String) (v : VehicleStatus) :
    mapGet (mapSet m k v) k2 = if k == k2 then some v else mapGet m k2 := by
  induction m with
  | nil => simp [mapSet, mapGet]
  | cons hd tl ih =>
    obtain ⟨k1, v1⟩ := hd
    by_cases h1 : k1 == k
    · have hk : k1 = k := by simpa using h1
      subst hk
      by_cases h2 : k1 == k2 <;> simp [mapSet, mapGet, h2]
    · by_cases h2 : k1 == k2
      · have hk : k1 = k2 := by simpa using h2
        subst hk
        have : ¬(k == k1) := fun h => h1 (by simpa using (beq_iff_eq.mp h).symm)
        simp [mapSet, mapGet, h1, this]
      · simp [mapSet, mapGet, h1, h2, ih]

theorem mapSet_idem (m : List (String × VehicleStatus)) (k : String) (v : VehicleStatus) :
    mapSet (mapSet m k v) k v = mapSet m k v := by
  induction m with
  | nil => simp [mapSet]
  | cons hd tl ih =>
    obtain ⟨k1, v1⟩ := hd
    by_cases h1 : k1 == k
    · simp [mapSet, h1]
    · simp [mapSet, h1, ih]

/-- Unfolding the update branch of `handleMessage` for a telemetry update. -/
theorem handleMessage_update (s : HookState) (m : WsMessage) (ts : String)
    (h : isTelemetryUpdate m = true) :
    handleMessage s m ts =
      { vehicles := mapSet s.vehicles (m.vehicle_id.getD "") (toVehicleStatus m)
        summary := updateSummary s.summary
          (mapSet s.vehicles (m.vehicle_id.getD "") (toVehicleStatus m)) ts
        messageCount := s.messageCount + 1 } := by
  unfold isTelemetryUpdate at h
  simp only [Bool.and_eq_true, Bool.not_eq_true'] at h
  obtain ⟨⟨h1, h2⟩, h3⟩ := h
  simp [handleMessage, h1, h2, h3]

/-- The vehicles component of the update branch of `handleMessage`. -/
theorem handleMessage_update_vehicles (s : HookState) (m : WsMessage) (ts : String)
    (h : isTelemetryUpdate m = true) :
    (handleMessage s m ts).vehicles =
      mapSet s.vehicles (m.vehicle_id.getD "") (toVehicleStatus m) := by
  rw [handleMessage_update s m ts h]

theorem isTelemetryUpdate_vehicle_id {m : WsMessage} (h : isTelemetryUpdate m = true) :
    ∃ k, m.vehicle_id = some k ∧ (k == "") = false := by
  unfold isTelemetryUpdate at h
  simp only [Bool.and_eq_true] at h
  obtain ⟨-, h3⟩ := h
  cases hv : m.vehicle_id with
  | none => rw [hv] at h3; simp [truthyStr] at h3
  | some k =>
    rw [hv] at h3
    refine ⟨k, rfl, ?_⟩
    simpa [truthyStr] using h3

/-- Claim C1: for every sequence of telemetry update messages, the vehicles
map entry for an id equals the `VehicleStatus` derived from the most recent
message carrying that `vehicle_id`, and ids with no update keep their prior
entry untouched. -/
theorem telemetry_last_writer_wins (msgs : List (WsMessage × String)) (s : HookState)
    (vid : String) (h : ∀ p ∈ msgs, isTelemetryUpdate p.1 = true) :
    mapGet (processMessages s msgs).vehicles vid =
      match lastUpdateFor vid msgs with
      | some m => some (toVehicleStatus m)
      | none => mapGet s.vehicles vid := by
  induction msgs generalizing s with
  | nil => simp [processMessages, lastUpdateFor]
  | cons p rest ih =>
    have hp : isTelemetryUpdate p.1 = true := h p (List.mem_cons_self _ _)
    have hrest : ∀ q ∈ rest, isTelemetryUpdate q.1 = true :=
      fun q hq => h q (List.mem_cons_of_mem _ hq)
    have hstep : processMessages s (p :: rest) = processMessages (handleMessage s p.1 p.2) rest :=
      rfl
    rw [hstep, ih _ hrest]
    cases hcase : lastUpdateFor vid rest with
    | some q => simp [lastUpdateFor, hcase]
    | none =>
      simp only [lastUpdateFor, hcase]
      rw [handleMessage_update s p.1 p.2 hp]
      simp only
      rw [mapGet_mapSet]
      obtain ⟨k, hk, -⟩ := isTelemetryUpdate_vehicle_id hp
      rw [hk]
      by_cases hkv : k == vid <;> simp [hkv, Option.getD]

/-- A telemetry update used as a concrete input in witnesses. -/
def updMsg0 : WsMessage :=
  { type := none
    vehicle_id := some "veh-1"
    vehicles := []
    timestamp := "2026-01-01T00:00:05Z"
    occupancy_count := 3
    location := ⟨36, 140⟩
    inference_latency_ms := 9
    consent_status := "granted"
    route_id := some "route-7"
    speed_kmh := some 42 }

/-- A later telemetry update for the same vehicle as `updMsg0`. -/
def updMsg1 : WsMessage :=
  { updMsg0 with
    timestamp := "2026-01-01T00:00:15Z"
    occupancy_count := 5
    consent_status := "pending" }

/-- A telemetry update for a second vehicle. -/
def updMsg2 : WsMessage :=
  { updMsg0 with
    vehicle_id := some "veh-2"
    timestamp := "2026-01-01T00:00:20Z"
    occupancy_count := 1 }

/-- The hook state right after mount: empty map, no summary, zero count. -/
def state0 : HookState := { vehicles := [], summary := none, messageCount := 0 }

theorem telemetry_last_writer_wins_witness :
    (∀ p ∈ [(updMsg0, "t1"), (updMsg1, "t2"), (updMsg2, "t3")], isTelemetryUpdate p.1 = true) ∧
      mapGet (processMessages state0 [(updMsg0, "t1"), (updMsg1, "t2"), (updMsg2, "t3")]).vehicles
          "veh-1" =
        some (toVehicleStatus updMsg1) := by
  refine ⟨by decide, ?_⟩
  have h := telemetry_last_writer_wins [(updMsg0, "t1"), (updMsg1, "t2"), (updMsg2, "t3")]
    state0 "veh-1" (by decide)
  exact h

/-- Claim C6: processing the same telemetry update twice in a row leaves the
vehicles map equal to the map obtained after processing it once. -/
theorem update_message_idempotent (s : HookState) (m : WsMessage) (ts1 ts2 : String)
    (h : isTelemetryUpdate m = true) :
    (handleMessage (handleMessage s m ts1) m ts2).vehicles = (handleMessage s m ts1).vehicles := by
  rw [handleMessage_update s m ts1 h, handleMessage_update _ m ts2 h]
  simp [mapSet_idem]

theorem update_message_idempotent_witness :
    isTelemetryUpdate updMsg0 = true ∧
      (handleMessage (handleMessage state0 updMsg0 "t1") updMsg0 "t2").vehicles =
        (handleMessage state0 updMsg0 "t1").vehicles :=
  ⟨by decide, update_message_idempotent state0 updMsg0 "t1" "t2" (by decide)⟩

/-- Unfolding `handleMessage` on the branches that leave the state alone:
not an `initial_state`, and either a control frame or no truthy id. -/
theorem handleMessage_noop (s : HookState) (m : WsMessage) (ts : String)
    (h1 : (m.type == some "initial_state") = false)
    (h : (m.type == some "heartbeat" || m.type == some "pong") = true ∨
      truthyStr m.vehicle_id = false) :
    handleMessage s m ts = s := by
  unfold handleMessage
  rcases h with h | h
  · simp [h1, h]
  · by_cases hb : (m.type == some "heartbeat" || m.type == some "pong") = true
    · simp [h1, hb]
    · simp [h1, hb, h]

/-- Claim C7: `heartbeat` and `pong` control frames, and messages with
neither a recognized type nor a truthy `vehicle_id`, leave the whole hook
state (vehicles map, summary and message count) unchanged. -/
theorem control_frames_ignored (s : HookState) (m : WsMessage) (ts : String)
    (h : m.type = some "heartbeat" ∨ m.type = some "pong" ∨
      (m.type ≠ some "initial_state" ∧ truthyStr m.vehicle_id = false)) :
    handleMessage s m ts = s := by
  rcases h with h | h | ⟨h1, h2⟩
  · exact handleMessage_noop s m ts (by simp [h]) (Or.inl (by simp [h]))
  · exact handleMessage_noop s m ts (by simp [h]) (Or.inl (by simp [h]))
  · exact handleMessage_noop s m ts (by simpa using h1) (Or.inr h2)

/-- A state holding one vehicle, used as a concrete input in witnesses. -/
def state1 : HookState :=
  { vehicles := [("veh-1", toVehicleStatus updMsg0)]
    summary := none
    messageCount := 1 }

/-- A heartbeat control frame. -/
def hbMsg0 : WsMessage := { updMsg0 with type := some "heartbeat", vehicle_id := none }

theorem control_frames_ignored_witness :
    handleMessage state1 hbMsg0 "t9" = state1 :=
  control_frames_ignored state1 hbMsg0 "t9" (Or.inl rfl)

theorem mapGet_append (m1 m2 : List (String × VehicleStatus)) (k : String) :
    mapGet (m1 ++ m2) k =
      match mapGet m1 k with
      | some v => some v
      | none => mapGet m2 k := by
  induction m1 with
  | nil => simp [mapGet]
  | cons hd tl ih =>
    obtain ⟨k1, v1⟩ := hd
    by_cases h1 : k1 == k <;> simp [mapGet, h1, ih]

theorem mapSet_append_of_get_none (m : List (String × VehicleStatus)) (k : String)
    (v : VehicleStatus) (h : mapGet m k = none) :
    mapSet m k v = m ++ [(k, v)] := by
  induction m with
  | nil => rfl
  | cons hd tl ih =>
    obtain ⟨k1, v1⟩ := hd
    by_cases h1 : k1 == k
    · simp [mapGet, h1] at h
    · simp only [mapGet, h1] at h
      simp [mapSet, h1, ih (by simpa using h)]

theorem mapGet_foldl_mapSet (vs : List VehicleStatus) (m0 : List (String × VehicleStatus))
    (vid : String) :
    mapGet (vs.foldl (fun m v => mapSet m v.vehicle_id v) m0) vid =
      match lastVehicleFor vid vs with
      | some v => some v
      | none => mapGet m0 vid := by
  induction vs generalizing m0 with
  | nil => rfl
  | cons v rest ih =>
    rw [List.foldl_cons, ih]
    cases hcase : lastVehicleFor vid rest with
    | some w => simp [lastVehicleFor, hcase]
    | none =>
      simp only [lastVehicleFor, hcase]
      rw [mapGet_mapSet]
      by_cases hk : v.vehicle_id == vid <;> simp [hk]

theorem foldl_mapSet_eq_append (vs : List VehicleStatus) (m0 : List (String × VehicleStatus))
    (hd : (vs.map VehicleStatus.vehicle_id).Nodup)
    (hdisj : ∀ v ∈ vs, mapGet m0 v.vehicle_id = none) :
    vs.foldl (fun m v => mapSet m v.vehicle_id v) m0 =
      m0 ++ vs.map (fun v => (v.vehicle_id, v)) := by
  induction vs generalizing m0 with
  | nil => simp
  | cons v rest ih =>
    rw [List.foldl_cons,
      mapSet_append_of_get_none m0 v.vehicle_id v (hdisj v (List.mem_cons_self _ _))]
    have hd2 : (rest.map VehicleStatus.vehicle_id).Nodup := by
      simpa using (List.nodup_cons.mp (by simpa using hd)).2
    have hvnot : v.vehicle_id ∉ rest.map VehicleStatus.vehicle_id :=
      (List.nodup_cons.mp (by simpa using hd)).1
    have hdisj2 : ∀ w ∈ rest, mapGet (m0 ++ [(v.vehicle_id, v)]) w.vehicle_id = none := by
      intro w hw
      rw [mapGet_append, hdisj w (List.mem_cons_of_mem _ hw)]
      have hne : (v.vehicle_id == w.vehicle_id) = false := by
        simp only [beq_eq_false_iff_ne, ne_eq]
        intro hcontra
        exact hvnot (hcontra ▸ List.mem_map_of_mem VehicleStatus.vehicle_id hw)
      simp [mapGet, hne]
    rw [ih (m0 ++ [(v.vehicle_id, v)]) hd2 hdisj2]
    simp

theorem lastVehicleFor_eq_none (vs : List VehicleStatus) (vid : String)
    (h : vid ∉ vs.map VehicleStatus.vehicle_id) :
    lastVehicleFor vid vs = none := by
  induction vs with
  | nil => rfl
  | cons v rest ih =>
    simp only [List.map_cons, List.mem_cons, not_or] at h
    rw [lastVehicleFor, ih h.2]
    have : (v.vehicle_id == vid) = false := by
      simp only [beq_eq_false_iff_ne, ne_eq]
      exact fun hc => h.1 hc.symm
    simp [this]

theorem lastVehicleFor_of_nodup (vs : List VehicleStatus)
    (hd : (vs.map VehicleStatus.vehicle_id).Nodup) (v : VehicleStatus) (hv : v ∈ vs) :
    lastVehicleFor v.vehicle_id vs = some v := by
  induction vs with
  | nil => cases hv
  | cons w rest ih =>
    rcases List.mem_cons.mp hv with hvw | hvr
    · subst hvw
      have hnot : v.vehicle_id ∉ rest.map VehicleStatus.vehicle_id :=
        (List.nodup_cons.mp (by simpa using hd)).1
      rw [lastVehicleFor, lastVehicleFor_eq_none rest v.vehicle_id hnot]
      simp
    · have hd2 : (rest.map VehicleStatus.vehicle_id).Nodup :=
        (List.nodup_cons.mp (by simpa using hd)).2
      rw [lastVehicleFor, ih hd2 hvr]

theorem handleMessage_initial (s : HookState) (m : WsMessage) (ts : String)
    (h : m.type = some "initial_state") :
    handleMessage s m ts =
      { s with
        vehicles := m.vehicles.foldl (fun mp v => mapSet mp v.vehicle_id v) []
        summary := updateSummary s.summary
          (m.vehicles.foldl (fun mp v => mapSet mp v.vehicle_id v) []) ts } := by
  simp [handleMessage, h]

/-- Claim C2: an `initial_state` message replaces the vehicles map with
exactly the vehicles of its payload keyed by `vehicle_id` (last duplicate
winning), independently of the previously held entries; with pairwise
distinct payload ids the map holds one entry per payload vehicle. -/
theorem initial_state_replaces (s : HookState) (m : WsMessage) (ts : String)
    (h : m.type = some "initial_state") :
    (∀ vid, mapGet (handleMessage s m ts).vehicles vid = lastVehicleFor vid m.vehicles) ∧
      ((m.vehicles.map VehicleStatus.vehicle_id).Nodup →
        (handleMessage s m ts).vehicles.length = m.vehicles.length ∧
          ∀ v ∈ m.vehicles, mapGet (handleMessage s m ts).vehicles v.vehicle_id = some v) := by
  rw [handleMessage_initial s m ts h]
  constructor
  · intro vid
    rw [mapGet_foldl_mapSet]
    cases hcase : lastVehicleFor vid m.vehicles <;> simp [mapGet]
  · intro hd
    constructor
    · rw [foldl_mapSet_eq_append m.vehicles [] hd (by intro v _; rfl)]
      simp
    · intro v hv
      rw [mapGet_foldl_mapSet, lastVehicleFor_of_nodup m.vehicles hd v hv]

/-- An `initial_state` message listing three vehicles, one of them inactive. -/
def initMsg0 : WsMessage :=
  { type := some "initial_state"
    vehicle_id := none
    vehicles :=
      [ toVehicleStatus updMsg0
      , { toVehicleStatus updMsg2 with is_active := false }
      , { toVehicleStatus updMsg0 with vehicle_id := "veh-3", occupancy_count := 7 } ]
    timestamp := "2026-01-01T00:00:00Z"
    occupancy_count := 0
    location := ⟨0, 0⟩
    inference_latency_ms := 0
    consent_status := ""
    route_id := none
    speed_kmh := none }

theorem initial_state_replaces_witness :
    initMsg0.type = some "initial_state" ∧
      (initMsg0.vehicles.map VehicleStatus.vehicle_id).Nodup ∧
      (handleMessage state1 initMsg0 "t0").vehicles.length = initMsg0.vehicles.length ∧
      mapGet (handleMessage state1 initMsg0 "t0").vehicles "veh-2" =
        some { toVehicleStatus updMsg2 with is_active := false } := by
  have hnd : (initMsg0.vehicles.map VehicleStatus.vehicle_id).Nodup := by decide
  have h := (initial_state_replaces state1 initMsg0 "t0" rfl).2 hnd
  refine ⟨rfl, hnd, h.1, ?_⟩
  exact h.2 { toVehicleStatus updMsg2 with is_active := false } (by decide)

theorem inactive_entry_stable (v : VehicleStatus) (hfalse : v.is_active = false) :
    ∀ (msgs : List (WsMessage × String)) (s : HookState) (vid : String),
      (∀ p ∈ msgs, p.1.type ≠ some "initial_state") →
      mapGet (processMessages s msgs).vehicles vid = some v →
      mapGet s.vehicles vid = some v := by
  intro msgs
  induction msgs with
  | nil =>
    intro s vid _ hget
    simpa [processMessages] using hget
  | cons p rest ih =>
    intro s vid hno hget
    have hget2 : mapGet (processMessages (handleMessage s p.1 p.2) rest).vehicles vid = some v :=
      hget
    have hmid := ih (handleMessage s p.1 p.2) vid
      (fun q hq => hno q (List.mem_cons_of_mem _ hq)) hget2
    have h1 : (p.1.type == some "initial_state") = false := by
      simpa using hno p (List.mem_cons_self _ _)
    by_cases h2 : (p.1.type == some "heartbeat" || p.1.type == some "pong") = true
    · rwa [handleMessage_noop s p.1 p.2 h1 (Or.inl h2)] at hmid
    · by_cases h3 : truthyStr p.1.vehicle_id = true
      · have h2f : (p.1.type == some "heartbeat" || p.1.type == some "pong") = false := by
          simpa using h2
        have hupd : isTelemetryUpdate p.1 = true := by
          simp [isTelemetryUpdate, h1, h2f, h3]
        rw [handleMessage_update_vehicles s p.1 p.2 hupd, mapGet_mapSet] at hmid
        by_cases hk : (p.1.vehicle_id.getD "" == vid) = true
        · rw [if_pos hk] at hmid
          have hv : toVehicleStatus p.1 = v := by injection hmid
          rw [← hv] at hfalse
          simp [toVehicleStatus] at hfalse
        · rw [if_neg (by simp [hk])] at hmid
          exact hmid
      · have h3f : truthyStr p.1.vehicle_id = false := by simpa using h3
        rwa [handleMessage_noop s p.1 p.2 h1 (Or.inr h3f)] at hmid

/-- Claim C8: the per-vehicle update branch always writes `is_active = true`,
so across any sequence of messages with no `initial_state` frame, an entry
shown as inactive must already have been that exact entry beforehand —
an inactive status can only originate from an `initial_state` payload. -/
theorem update_branch_forces_active (m : WsMessage) (msgs : List (WsMessage × String))
    (s : HookState) (vid : String) (v : VehicleStatus) :
    (toVehicleStatus m).is_active = true ∧
      ((∀ p ∈ msgs, p.1.type ≠ some "initial_state") →
        mapGet (processMessages s msgs).vehicles vid = some v →
        v.is_active = false →
        mapGet s.vehicles vid = some v) :=
  ⟨rfl, fun hno hget hfalse => inactive_entry_stable v hfalse msgs s vid hno hget⟩

/-- An inactive vehicle entry used as a concrete input in witnesses. -/
def inact0 : VehicleStatus := { toVehicleStatus updMsg2 with is_active := false }

/-- A state holding one active and one inactive vehicle. -/
def state2 : HookState :=
  { vehicles := [("veh-1", toVehicleStatus updMsg0), ("veh-2", inact0)]
    summary := none
    messageCount := 1 }

theorem update_branch_forces_active_witness :
    (toVehicleStatus updMsg0).is_active = true ∧
      mapGet state2.vehicles "veh-2" = some inact0 :=
  ⟨(update_branch_forces_active updMsg0 [] state0 "" inact0).1,
    (update_branch_forces_active updMsg0 [(updMsg1, "t1"), (hbMsg0, "t2")] state2 "veh-2"
        inact0).2
      (by decide) (by decide) rfl⟩

theorem foldl_add_eq_sum_map (f : VehicleStatus → ℚ) (vs : List VehicleStatus) (init : ℚ) :
    vs.foldl (fun sum v => sum + f v) init = init + (vs.map f).sum := by
  induction vs generalizing init with
  | nil => simp
  | cons v rest ih => simp [ih, add_assoc]

/-- Claim C9: for a non-empty vehicles map the recomputed summary fields
are the count of entries, the sum of occupancy counts, the two exact means
and the count of consent-granted entries; for an empty map the previous
summary is kept unchanged. -/
theorem summary_fields_correct (mp : List (String × VehicleStatus))
    (prev : Option FleetSummary) (ts : String) :
    (mp ≠ [] →
      updateSummary prev mp ts = some
        { total_vehicles := mp.length
          active_vehicles := ((mp.map Prod.snd).filter (fun v => v.is_active)).length
          total_passengers := ((mp.map Prod.snd).map VehicleStatus.occupancy_count).sum
          average_occupancy :=
            ((mp.map Prod.snd).map VehicleStatus.occupancy_count).sum / (mp.length : ℚ)
          average_latency_ms :=
            ((mp.map Prod.snd).map VehicleStatus.inference_latency_ms).sum / (mp.length : ℚ)
          consent_granted_count :=
            (mp.map Prod.snd).countP (fun v => v.consent_status == "granted")
          timestamp := ts }) ∧
      updateSummary prev [] ts = prev := by
  constructor
  · intro hne
    unfold updateSummary
    rw [if_neg (by simpa [List.length_eq_zero] using hne)]
    unfold computeSummary
    simp only [List.length_map]
    have hocc := foldl_add_eq_sum_map VehicleStatus.occupancy_count (mp.map Prod.snd) 0
    have hlat := foldl_add_eq_sum_map VehicleStatus.inference_latency_ms (mp.map Prod.snd) 0
    rw [zero_add] at hocc hlat
    simp [hocc, hlat, List.countP_eq_length_filter]
  · rfl

/-- A two-entry vehicles map used as a concrete input in witnesses. -/
def mp1 : List (String × VehicleStatus) :=
  [("veh-1", toVehicleStatus updMsg1), ("veh-2", inact0)]

theorem summary_fields_correct_witness :
    mp1 ≠ [] ∧
      updateSummary none mp1 "ts0" = some
        { total_vehicles := mp1.length
          active_vehicles := ((mp1.map Prod.snd).filter (fun v => v.is_active)).length
          total_passengers := ((mp1.map Prod.snd).map VehicleStatus.occupancy_count).sum
          average_occupancy :=
            ((mp1.map Prod.snd).map VehicleStatus.occupancy_count).sum / (mp1.length : ℚ)
          average_latency_ms :=
            ((mp1.map Prod.snd).map VehicleStatus.inference_latency_ms).sum / (mp1.length : ℚ)
          consent_granted_count :=
            (mp1.map Prod.snd).countP (fun v => v.consent_status == "granted")
          timestamp := "ts0" } :=
  ⟨by decide, (summary_fields_correct mp1 none "ts0").1 (by decide)⟩

/-- The two zone-transition kinds the Alert Dispatcher distinguishes. -/
inductive TransitionKind
  | enter
  | exit
deriving DecidableEq, Repr

/-- Modelled from the spec: the cooldown key of the Alert Dispatcher, the
(vehicle id, zone id, transition kind) triple of §4.4.  The dispatcher is
backend code not present under `src/` (the frontend only describes the
policy in the geofences page banner), so it is modelled from the spec. -/
structure AlertKey where
  vehicleId : String
  zoneId : ℕ
  kind : TransitionKind
deriving DecidableEq, Repr

/-- Modelled from the spec: the configured cooldown window, default 5
minutes (§4.4), in milliseconds. -/
def cooldownWindowMs : Int := 300000

/-- Modelled from the spec: the creation time of the last alert recorded
for each exact triple (§3 MembershipState / §4.4). -/
def lookupLastAlert : List (AlertKey × Int) → AlertKey → Option Int
  | [], _ => none
  | (k1, t) :: rest, k => if k1 = k then some t else lookupLastAlert rest k

/-- Modelled from the spec: suppress a new alert iff the last alert of the
exact (vehicle, zone, kind) triple was created less than the cooldown
window ago (§4.4); no recorded alert means no suppression. -/
def shouldSuppress (st : List (AlertKey × Int)) (k : AlertKey) (now : Int) : Bool :=
  match lookupLastAlert st k with
  | some t => decide (now - t < cooldownWindowMs)
  | none => false

/-- Modelled from the spec: on an accepted alert the dispatcher records the
creation time for that exact triple (§4.4). -/
def recordAlert : List (AlertKey × Int) → AlertKey → Int → List (AlertKey × Int)
  | [], k, t => [(k, t)]
  | (k1, t1) :: rest, k, t =>
    if k1 = k then (k, t) :: rest else (k1, t1) :: recordAlert rest k t

theorem lookupLastAlert_recordAlert (st : List (AlertKey × Int)) (k1 k2 : AlertKey) (t : Int) :
    lookupLastAlert (recordAlert st k1 t) k2 =
      if k1 = k2 then some t else lookupLastAlert st k2 := by
  induction st with
  | nil =>
    by_cases h : k1 = k2 <;> simp [recordAlert, lookupLastAlert, h]
  | cons hd tl ih =>
    obtain ⟨ka, ta⟩ := hd
    by_cases ha : ka = k1
    · subst ha
      by_cases h : ka = k2 <;> simp [recordAlert, lookupLastAlert, h]
    · by_cases hb : ka = k2
      · subst hb
        have : ¬ k1 = ka := fun hc => ha hc.symm
        simp [recordAlert, lookupLastAlert, ha, this]
      · simp [recordAlert, lookupLastAlert, ha, hb, ih]

/-- Claim C3: an alert is suppressed iff the last alert of that exact
(vehicle, zone, kind) triple is younger than the cooldown window (default
5 minutes = 300000 ms), and recording an enter alert never changes the
suppression decision for the exit triple of the same (vehicle, zone). -/
theorem cooldown_keyed_by_exact_triple (st : List (AlertKey × Int)) (k : AlertKey)
    (now t : Int) (vid : String) (zid : ℕ) :
    (shouldSuppress st k now = true ↔
      ∃ tl, lookupLastAlert st k = some tl ∧ now - tl < cooldownWindowMs) ∧
      shouldSuppress (recordAlert st ⟨vid, zid, TransitionKind.enter⟩ t)
          ⟨vid, zid, TransitionKind.exit⟩ now =
        shouldSuppress st ⟨vid, zid, TransitionKind.exit⟩ now ∧
      cooldownWindowMs = 300000 := by
  refine ⟨?_, ?_, rfl⟩
  · unfold shouldSuppress
    cases hc : lookupLastAlert st k with
    | none => simp
    | some tl => simp [hc]
  · unfold shouldSuppress
    rw [lookupLastAlert_recordAlert]
    rw [if_neg (by simp)]

/-- The geofence polygon payload, `{type, coordinates}` GeoJSON. -/
structure GeoPolygon where
  type : String
  coordinates : List (List (List ℚ))
deriving DecidableEq, Repr

/-- The `Geofence` interface of the frontend. -/
structure Geofence where
  id : ℕ
  name : String
  description : Option String
  polygon : GeoPolygon
  alert_on_enter : Bool
  alert_on_exit : Bool
  color : String
  is_active : Bool
  created_at : String
  updated_at : String
deriving DecidableEq, Repr

/-- Outcome of the `fetchWithAuth` round trip inside `loadGeofences`. -/
inductive FetchOutcome
  | ok (data : List Geofence)
  | httpError
  | thrown
deriving DecidableEq, Repr

/-- One run of `loadGeofences` in the fleet map component: it returns early
when geofences are hidden, replaces the list only on an ok response, keeps
the previous snapshot on a non-ok response, and its catch only logs. -/
def loadGeofences (showGeofences : Bool) (current : List Geofence)
    (r : FetchOutcome) : List Geofence :=
  if !showGeofences then current
  else
    match r with
    | .ok data => data
    | .httpError => current
    | .thrown => current

/-- The fixed geofence refresh interval of the fleet map, in milliseconds
(`setInterval(loadGeofences, 30000)`). -/
def geofenceRefreshIntervalMs : ℕ := 30000

/-- Claim C4: a failed geofence refresh (non-ok response or a throw) leaves
the previously loaded snapshot completely unchanged, and the retry happens
on the fixed 30-second interval. -/
theorem geofence_refresh_failure_keeps_snapshot (sg : Bool) (cur : List Geofence)
    (r : FetchOutcome) (h : r = FetchOutcome.httpError ∨ r = FetchOutcome.thrown) :
    loadGeofences sg cur r = cur ∧ geofenceRefreshIntervalMs = 30000 := by
  refine ⟨?_, rfl⟩
  rcases h with h | h <;> subst h <;> cases sg <;> simp [loadGeofences]

/-- A concrete geofence used as a witness input. -/
def gf0 : Geofence :=
  { id := 1
    name := "Depot"
    description := none
    polygon := ⟨"Polygon", [[[139, 35], [140, 35], [140, 36], [139, 35]]]⟩
    alert_on_enter := true
    alert_on_exit := false
    color := "#3b82f6"
    is_active := true
    created_at := "2026-01-01T00:00:00Z"
    updated_at := "2026-01-01T00:00:00Z" }

theorem geofence_refresh_failure_keeps_snapshot_witness :
    loadGeofences true [gf0] FetchOutcome.httpError = [gf0] ∧
      geofenceRefreshIntervalMs = 30000 :=
  geofence_refresh_failure_keeps_snapshot true [gf0] FetchOutcome.httpError (Or.inl rfl)

/-- The closing threshold of `PolygonDrawer` (0.002 degrees). -/
def closeThresholdDeg : ℚ := 1 / 500

/-- One map click of `PolygonDrawer`.  Points are stored as (lat, lng).
With at least 3 points placed and the click within 0.002 degrees of the
first point, the closed GeoJSON ring is emitted (vertices swapped to
(lng, lat), first vertex appended as last) and the points reset; otherwise
the click is appended.  The source compares `Math.sqrt(d) < 0.002`; both
sides being nonnegative this is the squared comparison used here. -/
def clickStep (points : List (ℚ × ℚ)) (c : ℚ × ℚ) :
    List (ℚ × ℚ) × Option (List (ℚ × ℚ)) :=
  match points with
  | [] => ([c], none)
  | f :: rest =>
    if 3 ≤ (f :: rest).length ∧
        (c.1 - f.1) * (c.1 - f.1) + (c.2 - f.2) * (c.2 - f.2) <
          closeThresholdDeg * closeThresholdDeg then
      ([], some (((f :: rest) ++ [f]).map (fun q => (q.2, q.1))))
    else ((f :: rest) ++ [c], none)

/-- A whole click session of `PolygonDrawer` from a fresh drawing state,
collecting every emitted polygon. -/
def runClicks (clicks : List (ℚ × ℚ)) : List (ℚ × ℚ) × List (List (ℚ × ℚ)) :=
  clicks.foldl
    (fun acc c =>
      match clickStep acc.1 c with
      | (pts, none) => (pts, acc.2)
      | (pts, some ring) => (pts, acc.2 ++ [ring]))
    ([], [])

/-- Counterexample to claim C5: four clicks on the very same spot draw and
close a polygon, so the emitted ring has a single distinct vertex — the
drawer checks only that 3 points were placed, not that they are distinct. -/
theorem polygon_distinct_vertices_counterexample :
    (runClicks [((0 : ℚ), (0 : ℚ)), (0, 0), (0, 0), (0, 0)]).2 =
        [[((0 : ℚ), (0 : ℚ)), (0, 0), (0, 0), (0, 0)]] ∧
      ([((0 : ℚ), (0 : ℚ)), (0, 0), (0, 0), (0, 0)] : List (ℚ × ℚ)).dedup.length = 1 := by
  constructor
  · have hth : (closeThresholdDeg : ℚ) ≠ 0 := by norm_num [closeThresholdDeg]
    have hc : (((0 : ℚ) - 0) * ((0 : ℚ) - 0) + ((0 : ℚ) - 0) * ((0 : ℚ) - 0)) <
        closeThresholdDeg * closeThresholdDeg := by
      norm_num [closeThresholdDeg]
    simp [runClicks, clickStep, hc, hth]
  · decide

/-- Claim C5 as amended: every polygon emitted by the drawing component is a
closed ring of (longitude, latitude) pairs whose first vertex is repeated as
the last, emitted only once at least 3 vertices (not necessarily distinct)
have been placed. -/
theorem polygon_emission_closed_ring (pts : List (ℚ × ℚ)) (c : ℚ × ℚ)
    (pts2 : List (ℚ × ℚ)) (ring : List (ℚ × ℚ))
    (h : clickStep pts c = (pts2, some ring)) :
    3 ≤ pts.length ∧
      ring = (pts ++ pts.take 1).map (fun q => (q.2, q.1)) ∧
      ring.head? = ring.getLast? ∧
      ring.length = pts.length + 1 := by
  match pts with
  | [] => simp [clickStep] at h
  | f :: rest =>
    rw [clickStep] at h
    split at h
    · rename_i hcond
      injection h with h1 h2
      injection h2 with h2
      subst h2
      refine ⟨hcond.1, by simp, ?_, by simp⟩
      rw [show ((f :: rest) ++ [f]).map (fun q => (q.2, q.1)) =
          ((f :: rest).map (fun q => (q.2, q.1))) ++ [(f.2, f.1)] by simp,
        List.getLast?_concat]
      simp
    · simp at h

/-- Evaluation of a concrete closing click on a 3-vertex triangle. -/
theorem clickStep_triangle_eval :
    clickStep [((0 : ℚ), (0 : ℚ)), (0, 1), (1, 1)] ((0 : ℚ), (0 : ℚ)) =
      ([], some [((0 : ℚ), (0 : ℚ)), (1, 0), (1, 1), (0, 0)]) := by
  have hth : (closeThresholdDeg : ℚ) ≠ 0 := by norm_num [closeThresholdDeg]
  have hc : (((0 : ℚ) - 0) * ((0 : ℚ) - 0) + ((0 : ℚ) - 0) * ((0 : ℚ) - 0)) <
      closeThresholdDeg * closeThresholdDeg := by
    norm_num [closeThresholdDeg]
  simp [clickStep, hc, hth]

theorem polygon_emission_closed_ring_witness :
    3 ≤ ([((0 : ℚ), (0 : ℚ)), (0, 1), (1, 1)] : List (ℚ × ℚ)).length ∧
      [((0 : ℚ), (0 : ℚ)), (1, 0), (1, 1), (0, 0)] =
        (([((0 : ℚ), (0 : ℚ)), (0, 1), (1, 1)] : List (ℚ × ℚ)) ++
            ([((0 : ℚ), (0 : ℚ)), (0, 1), (1, 1)] : List (ℚ × ℚ)).take 1).map
          (fun q => (q.2, q.1)) ∧
      ([((0 : ℚ), (0 : ℚ)), (1, 0), (1, 1), (0, 0)] : List (ℚ × ℚ)).head? =
        ([((0 : ℚ), (0 : ℚ)), (1, 0), (1, 1), (0, 0)] : List (ℚ × ℚ)).getLast? ∧
      ([((0 : ℚ), (0 : ℚ)), (1, 0), (1, 1), (0, 0)] : List (ℚ × ℚ)).length =
        ([((0 : ℚ), (0 : ℚ)), (0, 1), (1, 1)] : List (ℚ × ℚ)).length + 1 :=
  polygon_emission_closed_ring _ _ _ _ clickStep_triangle_eval

/-- The `Alert` record of `NotificationBell`. -/
structure AlertItem where
  id : ℕ
  alert_type : String
  title : String
  message : String
  severity : String
  vehicle_id : Option String
  geofence_id : Option ℕ
  is_read : Bool
  is_acknowledged : Bool
  created_at : String
deriving DecidableEq, Repr

/-- A parsed alerts-channel JSON message. -/
structure AlertMsg where
  type : Option String
  alert_type : String
  title : String
  message : String
  severity : String
  vehicle_id : Option String
  geofence_id : Option ℕ
  created_at : Option String
deriving DecidableEq, Repr

/-- JS `a || b` for an optional string (`undefined` and `""` are falsy). -/
def jsOrString (a : Option String) (b : String) : String :=
  match a with
  | none => b
  | some s => if s == "" then b else s

/-- The `NotificationBell` state touched by the alerts WebSocket handler. -/
structure BellState where
  alerts : List AlertItem
  unreadCount : ℕ
deriving DecidableEq, Repr

/-- The alert built by the `"alert"` branch of the bell websocket handler;
`nowId` is the `Date.now()` temporary id, `nowIso` the fallback timestamp. -/
def mkAlertItem (m : AlertMsg) (nowId : ℕ) (nowIso : String) : AlertItem :=
  { id := nowId
    alert_type := m.alert_type
    title := m.title
    message := m.message
    severity := m.severity
    vehicle_id := m.vehicle_id
    geofence_id := m.geofence_id
    is_read := false
    is_acknowledged := false
    created_at := jsOrString m.created_at nowIso }

/-- One `ws.onmessage` step of `NotificationBell`: an `"alert"` message
bumps the unread count by one and prepends the new alert to the 9 most
recent prior entries (`[newAlert, ...prev.slice(0, 9)]`); every other
message is ignored. -/
def handleAlert (s : BellState) (m : AlertMsg) (nowId : ℕ) (nowIso : String) : BellState :=
  if m.type == some "alert" then
    { alerts := mkAlertItem m nowId nowIso :: s.alerts.take 9
      unreadCount := s.unreadCount + 1 }
  else s

/-- Processing a sequence of alerts-channel messages, each paired with the
`Date.now()` id and ISO timestamp current when it arrived. -/
def processAlerts (s : BellState) (ms : List (AlertMsg × ℕ × String)) : BellState :=
  ms.foldl (fun st p => handleAlert st p.1 p.2.1 p.2.2) s

theorem processAlerts_length_le (ms : List (AlertMsg × ℕ × String)) :
    ∀ s : BellState, s.alerts.length ≤ 10 → (processAlerts s ms).alerts.length ≤ 10 := by
  induction ms with
  | nil =>
    intro s h
    simpa [processAlerts] using h
  | cons p rest ih =>
    intro s h
    have hstep : processAlerts s (p :: rest) =
        processAlerts (handleAlert s p.1 p.2.1 p.2.2) rest := rfl
    rw [hstep]
    apply ih
    unfold handleAlert
    by_cases hm : (p.1.type == some "alert") = true
    · have htake : (s.alerts.take 9).length ≤ 9 := by
        simp [List.length_take]
      simp only [hm, if_true, List.length_cons]
      omega
    · simp only [hm, Bool.false_eq_true, if_false]
      exact h

/-- Claim C10: starting from a list of at most 10 alerts, the bell alert
list stays bounded by 10 across any received message sequence, and each
`"alert"` message increments the unread count by one and prepends the new
alert to the 9 most recent prior entries. -/
theorem alerts_list_bounded (s : BellState) (ms : List (AlertMsg × ℕ × String))
    (m : AlertMsg) (nid : ℕ) (niso : String) :
    (s.alerts.length ≤ 10 → (processAlerts s ms).alerts.length ≤ 10) ∧
      (m.type = some "alert" →
        handleAlert s m nid niso =
          { alerts := mkAlertItem m nid niso :: s.alerts.take 9
            unreadCount := s.unreadCount + 1 }) := by
  refine ⟨fun h => processAlerts_length_le ms s h, fun h => ?_⟩
  simp [handleAlert, h]

/-- A concrete alerts-channel alert message. -/
def am0 : AlertMsg :=
  { type := some "alert"
    alert_type := "zone_enter"
    title := "Vehicle entered Depot"
    message := "veh-1 entered geofence Depot"
    severity := "info"
    vehicle_id := some "veh-1"
    geofence_id := some 1
    created_at := some "2026-01-01T00:01:00Z" }

/-- A bell state holding one already-loaded alert. -/
def bell0 : BellState :=
  { alerts := [mkAlertItem am0 7 "2026-01-01T00:00:30Z"], unreadCount := 1 }

theorem alerts_list_bounded_witness :
    (processAlerts bell0 [(am0, 8, "2026-01-01T00:01:01Z")]).alerts.length ≤ 10 ∧
      handleAlert bell0 am0 8 "2026-01-01T00:01:01Z" =
        { alerts := mkAlertItem am0 8 "2026-01-01T00:01:01Z" :: bell0.alerts.take 9
          unreadCount := bell0.unreadCount + 1 } :=
  ⟨(alerts_list_bounded bell0 [(am0, 8, "2026-01-01T00:01:01Z")] am0 8
        "2026-01-01T00:01:01Z").1 (by decide),
    (alerts_list_bounded bell0 [(am0, 8, "2026-01-01T00:01:01Z")] am0 8
        "2026-01-01T00:01:01Z").2 rfl⟩

end FleetGateway
